import Mathlib

/-!
Verification of `elmongo` (src/lib/elmongo.js), a mongoose plugin that keeps an
Elasticsearch index in sync with MongoDB records.

The embedding below translates the pure logic of the plugin into Lean:

* field selection (`getIndexedFields`, lines 185–208 of src/lib/elmongo.js);
* multi-collection search target resolution and URI construction
  (`elmongo.search`, lines 68–101);
* the process-wide configuration registry (`elmongo.search.config`,
  lines 108–119);
* the per-record index / unindex request callbacks (lines 126–182);
* the plugin-attach closure that computes the indexed-field set once and
  shares it with the hooks (lines 20–61).

Functions from the `helpers`/`sync` modules of the repository that are not part of
src/ (makeDomainUri, makeTypeUri, mergeOptions, mergeModelOptions,
backOffRequest) are modelled from the spec; the doc comment of each such definition
says so explicitly.  JavaScript truthiness is modelled with `Option` (absent /
`undefined` / `null` ↦ `none`), and a thrown `TypeError` with an `Except`
error value.
-/

namespace Elmongo

/-! ## Schema declarations and field selection -/

/-- The truthiness-relevant shape of one sub-key of an object-valued schema
declaration: its name together with the truthiness of the `es_no_index`
property of its value (line 193 reads `schema.tree[k][key].es_no_index`). -/
abbrev SubKey := String × Bool

/-- An object-valued schema-tree entry (`typeof schema.tree[k]` equal to the string literal object):
the truthiness of its own `es_no_index` property, and its other keys in
insertion order (what `Object.keys` at line 191 iterates).  When
`es_no_index` is a present truthy property `Object.keys` would also list it,
but the source only iterates the keys when the flag is falsy (line 188), so
omitting the flag key itself from `subs` is observationally faithful; a
present-but-`false` flag key would contribute `false` to the scan at
line 193 and is likewise irrelevant. -/
structure ObjDecl where
  es_no_index : Bool
  subs : List SubKey
  deriving Repr, DecidableEq

/-- One value of `schema.tree`: either a non-object declaration (e.g. a bare
type constructor such as `String`; reading `.es_no_index` on it yields
`undefined`, which is falsy), or an object declaration. -/
inductive FieldDecl where
  | prim : FieldDecl
  | obj : ObjDecl → FieldDecl
  deriving Repr, DecidableEq

/-- A schema tree: field names with their declarations, in `for…in` insertion
order. -/
abbrev SchemaTree := List (String × FieldDecl)

/-- Lines 190–196: scan the keys of the object and record whether the value of
any sub-key has a truthy `es_no_index` (the `return` inside `forEach` only ends
that one iteration, so the scan visits every key). -/
def foundDontIndex (subs : List SubKey) : Bool :=
  subs.any (fun s => s.2)

/-- `getIndexedFields` (src/lib/elmongo.js lines 185–208).  For each field
`k`:

* line 188: if the declaration is an object and its own `es_no_index` is
  falsy, push `k` unless the value of some sub-key has truthy `es_no_index`
  (lines 190–200);
* line 202: otherwise push `k` iff the `es_no_index` of the declaration is falsy —
  true for every non-object declaration (property access yields `undefined`),
  false for an object declaration that reached this branch (it did so
  precisely because its `es_no_index` was truthy). -/
def getIndexedFields : SchemaTree → List String
  | [] => []
  | (k, FieldDecl.obj d) :: rest =>
      if !d.es_no_index then
        if !(foundDontIndex d.subs) then k :: getIndexedFields rest
        else getIndexedFields rest
      else
        getIndexedFields rest
  | (k, FieldDecl.prim) :: rest => k :: getIndexedFields rest

/-- A mongoose "simple" field carrying an explicit `es_no_index` flag is
written `{ type: String, es_no_index: b }` in a schema: its tree value is an
object declaration whose only other key is `type`, whose value (a bare type
constructor) has no `es_no_index` of its own. -/
def simpleFlagged (b : Bool) : FieldDecl :=
  FieldDecl.obj { es_no_index := b, subs := [("type", false)] }

/-! ## Connection options and the configuration registry -/

/-- The Elasticsearch url options object (`elmongo.search.config` accepts
keys `host`, `port`, `prefix`; line 106).  Each field is `none` when the key
is absent or falsy (JavaScript `||` merging treats a falsy value, including
the empty string, exactly like an absent one). -/
structure UrlOpts where
  host : Option String := none
  port : Option Nat := none
  pfx : Option String := none
  deriving Repr, DecidableEq

/-- Built-in default host.  The spec (§3) fixes that built-in defaults exist
for the required connection keys but does not fix their values; this value is
representative. -/
def builtinHost : String := "localhost"

/-- Built-in default port (representative, see `builtinHost`). -/
def builtinPort : Nat := 9200

/-- Modelled from the spec: `helpers.mergeOptions` (the file
`src/lib/helpers.js` of the repository is not included in src/) normalizes a connection-options
object: for each option key a present, non-empty value wins, otherwise it
falls back to the built-in defaults (§3, §4.7); the optional `prefix` has no
built-in default.  It is a pure function of its single argument — it cannot
read the module-scoped `elasticUrlOptions` variable of src/lib/elmongo.js. -/
def mergeOptions (o : UrlOpts) : UrlOpts :=
  { host := some (o.host.getD builtinHost)
    port := some (o.port.getD builtinPort)
    pfx := o.pfx }

/-- Lines 111–115 of `elmongo.search.config`: for each key of the stored
options object, overwrite it with the value from the call when that value is truthy
(`elasticUrlOptions[key] = options[key] || elasticUrlOptions[key]`). -/
def overwriteSpecified (stored o : UrlOpts) : UrlOpts :=
  { host := o.host.orElse (fun _ => stored.host)
    port := o.port.orElse (fun _ => stored.port)
    pfx := o.pfx.orElse (fun _ => stored.pfx) }

/-- `elmongo.search.config` (lines 108–119) acting on the module-level
`elasticUrlOptions` cell (line 12, initially `null` ↦ `none`).  When a stored
object exists, lines 111–115 merge the truthy values of the new call into it — but
line 118 then unconditionally rebinds `elasticUrlOptions` to
`helpers.mergeOptions(options)`, a fresh normalization of the options of this call
alone, so the merged object computed by the loop is discarded. -/
def searchConfig (stored : Option UrlOpts) (o : UrlOpts) : Option UrlOpts :=
  let _discardedMerge := stored.map (fun s => overwriteSpecified s o)
  some (mergeOptions o)

/-! ## Multi-collection search (`elmongo.search`, lines 68–101) -/

/-- The part of a search-options object that target resolution reads and
writes: its `collections` key (`none` when absent). -/
structure SearchOpts where
  collections : Option (List String) := none
  deriving Repr, DecidableEq

/-- The condition at line 78, `searchOpts.collections && searchOpts.collections.length`, is
truthy iff the key is present and the array is non-empty (an empty array is a
truthy object but has length `0`, which is falsy). -/
def collectionsNonEmpty : Option (List String) → Bool
  | some l => l.length != 0
  | none => false

/-- A thrown JavaScript error, as a value. -/
inductive JsError where
  /-- `TypeError` from calling `.join` on `undefined` (line 98 when the local
  `collections` variable was never assigned an array). -/
  | joinOnUndefined : JsError
  deriving Repr, DecidableEq

/-- Target resolution of `elmongo.search` (lines 73–96), returning the value
of the **local** variable `collections` at line 98 together with the possibly
mutated `searchOpts` object.

* prefix truthy (lines 75–86): non-empty collections are each prefixed with
  `prefix + "-"`; otherwise the single wildcard `prefix + "*"` is used.
* prefix falsy (lines 87–96): when `searchOpts.collections` is falsy,
  line 94 assigns a one-element `_all` array to `searchOpts.collections` — the **property of
  the argument object** — while the local variable `collections` read at
  line 98 keeps its earlier value (`undefined`). -/
def resolveTargets (pfx : Option String) (searchOpts : SearchOpts) :
    Option (List String) × SearchOpts :=
  let collections := searchOpts.collections
  match pfx with
  | some p =>
      if collectionsNonEmpty searchOpts.collections then
        (collections.map (fun l => l.map (fun c => p ++ "-" ++ c)), searchOpts)
      else
        (some [p ++ "*"], searchOpts)
  | none =>
      match collections with
      | none => (none, { searchOpts with collections := some ["_all"] })
      | some l => (some l, searchOpts)

/-- Modelled from the spec: `helpers.makeDomainUri` (helpers.js is not in
src/) builds the `{host}:{port}` part of every request uri (§6).  Applied to
normalized options, whose host and port are always present. -/
def makeDomainUri (o : UrlOpts) : String :=
  o.host.getD "" ++ ":" ++ toString (o.port.getD 0)

/-- The fixed query-string tail appended to every search uri (lines 38
and 98). -/
def searchUriTail : String :=
  "/_search?search_type=dfs_query_then_fetch&preference=_primary_first"

/-- `elmongo.search` up to the point the request is issued (lines 68–101):
merges the cached url options (line 70), resolves the targets
(lines 73–96), and builds the search uri (line 98).  Returns the uri and the
final `searchOpts` object (both are handed to
`helpers.doSearchAndNormalizeResults` at line 100), or the thrown `TypeError`
when line 98 calls the join method on `collections` while it is still
`undefined`. -/
def elmongoSearch (elasticUrlOptions : UrlOpts) (searchOpts : SearchOpts) :
    Except JsError (String × SearchOpts) :=
  let opts := mergeOptions elasticUrlOptions
  match resolveTargets opts.pfx searchOpts with
  | (none, _) => Except.error JsError.joinOnUndefined
  | (some targets, searchOpts) =>
      Except.ok
        (makeDomainUri opts ++ "/" ++ String.intercalate "," targets ++ searchUriTail,
         searchOpts)

/-! ## Per-model static search (lines 35–41) -/

/-- The merged per-model options used by `schema.statics.search`
(`helpers.mergeModelOptions(options, this)`, line 36, already applied): the
connection keys plus the configured index and type names of the collection. -/
structure ModelOptions where
  host : String
  port : Nat
  index : String
  type : String
  deriving Repr, DecidableEq

/-- Modelled from the spec: `helpers.makeTypeUri` (helpers.js is not in src/)
builds `{host}:{port}/{index}/{type}`, the per-document-type uri root used by
the index, unindex and per-model search requests (§6). -/
def makeTypeUri (o : ModelOptions) : String :=
  o.host ++ ":" ++ toString o.port ++ "/" ++ o.index ++ "/" ++ o.type

/-- Line 38: the uri of `schema.statics.search`,
`helpers.makeTypeUri(options)` with the fixed `_search` query-string tail appended. -/
def staticSearchUri (o : ModelOptions) : String :=
  makeTypeUri o ++ searchUriTail

/-! ## Per-record index / unindex callbacks (lines 126–182) -/

/-- The outcome `helpers.backOffRequest` hands to its callback.  Modelled
from the spec: `backOffRequest` (helpers.js is not in src/) executes one
logical request with retry/backoff (§4.3) and invokes its callback exactly
once, either with an error — after a non-retryable failure or exhausted
retries — or with the response body.  The underlying error is opaque here
(a string stands for the error object). -/
abbrev RequestOutcome := Except String String

/-- `util.inspect(err, true, 10, true)` — an external Node formatting
function, modelled as returning the (opaque) rendering of the error. -/
def utilInspect (err : String) : String := err

/-- The wrapped error built on failure: a `new Error(message)` with the
original cause attached as `error.details` (lines 143–144 and 173–174). -/
structure WrappedError where
  message : String
  details : String
  deriving Repr, DecidableEq

/-- An event emitted on the document (`self.emit(...)`). -/
inductive Emission where
  | error : WrappedError → Emission
  | indexed : String → Emission
  | unindexed : String → Emission
  deriving Repr, DecidableEq

/-- The callback body of `index` (lines 141–151): on error, emit an `error` event
with the wrapped error and return (no success event); otherwise emit
`elmongo-indexed` with the response body.  The whole callback is the
ordered list of events it emits; it returns normally in both cases. -/
def indexCallback : RequestOutcome → List Emission
  | Except.error err =>
      [Emission.error
        { message := "Elasticsearch document indexing error: " ++ utilInspect err
          details := err }]
  | Except.ok body => [Emission.indexed body]

/-- The callback body of `unindex` (lines 171–181), same shape with the
deletion message and the `elmongo-unindexed` success event. -/
def unindexCallback : RequestOutcome → List Emission
  | Except.error err =>
      [Emission.error
        { message := "Elasticsearch document index deletion error: " ++ utilInspect err
          details := err }]
  | Except.ok body => [Emission.unindexed body]

/-! ## Plugin attachment (lines 20–61): the indexed-field set is a closure
value -/

/-- The closure state created by one call of the plugin function `elmongo`
(line 20): the `indexedFields` value computed at line 22, instrumented with a
count of how many times `getIndexedFields` has run for this collection. -/
structure PluginClosure where
  indexedFields : List String
  fieldComputations : Nat
  deriving Repr, DecidableEq

/-- Attaching the plugin to a schema (lines 20–33): `getIndexedFields` runs
once (line 22) and its result is captured by the closures installed on the
schema. -/
def elmongoAttach (tree : SchemaTree) : PluginClosure :=
  { indexedFields := getIndexedFields tree, fieldComputations := 1 }

/-- The serialization-relevant effect of the post-save hook (lines
44–48): line 46 sets `options.indexedFields` from the closure variable —
no call of `getIndexedFields` — and `this.index(options)` serializes with
that set.  Returns the field set supplied to serialization and the
(unchanged) closure state. -/
def postSaveHook (c : PluginClosure) : List String × PluginClosure :=
  (c.indexedFields, c)

/-- The serialization-relevant effect of `schema.statics.sync` (lines
28–33): line 30 likewise sets `options.indexedFields` from the closure
variable before delegating to the bulk `sync`. -/
def syncStatic (c : PluginClosure) : List String × PluginClosure :=
  (c.indexedFields, c)

/-- A serialization-bearing operation on an attached collection. -/
inductive PluginOp where
  | save : PluginOp
  | syncAll : PluginOp
  deriving Repr, DecidableEq

/-- Run a sequence of operations against the closure, collecting the field
set each one supplies to serialization and threading the closure state. -/
def runOps (c : PluginClosure) : List PluginOp → List (List String) × PluginClosure
  | [] => ([], c)
  | op :: rest =>
      let (fields, c2) := match op with
        | PluginOp.save => postSaveHook c
        | PluginOp.syncAll => syncStatic c
      let (fs, c3) := runOps c2 rest
      (fields :: fs, c3)

/-! ## Theorems -/

/-- Helper: running any operation sequence against a closure returns the
stored field set for every operation and leaves the closure unchanged. -/
theorem runOps_const (c : PluginClosure) (ops : List PluginOp) :
    runOps c ops = (ops.map (fun _ => c.indexedFields), c) := by
  induction ops with
  | nil => rfl
  | cons op rest ih => cases op <;> simp [runOps, postSaveHook, syncStatic, ih]

/-- C1 counterexample: the claim states an object-valued field is excluded
iff **every** sub-key is flagged no-index.  In the schema with the single
field `address`, an object whose sub-key `street` is flagged and whose
sub-key `city` is not, the flags are not unanimous — yet `getIndexedFields`
excludes `address`.  The biconditional of the claim is therefore false at
this input. -/
theorem getIndexedFields_unanimity_false :
    ¬ (("address" ∉ getIndexedFields
          [("address", FieldDecl.obj
              { es_no_index := false, subs := [("street", true), ("city", false)] })])
        ↔ ([("street", true), ("city", false)] : List SubKey).all (fun s => s.2) = true) := by
  decide

/-- C1 (amended): a top-level object-valued field whose own flag is falsy is
excluded from the field set iff **at least one** of its sub-keys is flagged
no-index (the `forEach` at lines 192–196 sets `foundDontIndex` as soon as
any sub-key carries the flag). -/
theorem getIndexedFields_obj_excluded_iff_some_subkey_flagged
    (k : String) (subs : List SubKey) (rest : SchemaTree) :
    getIndexedFields ((k, FieldDecl.obj { es_no_index := false, subs := subs }) :: rest)
      = if subs.any (fun s => s.2) then getIndexedFields rest
        else k :: getIndexedFields rest := by
  cases h : subs.any (fun s => s.2) <;>
    simp [getIndexedFields, foundDontIndex, h]

/-- C6: a top-level simple field is excluded iff it is flagged no-index —
a bare declaration (no flag possible) is always included, a
`{ type: ..., es_no_index: b }` declaration is included iff `b` is falsy —
and the empty schema yields the empty field set. -/
theorem getIndexedFields_simple_iff_flag :
    getIndexedFields [] = []
    ∧ (∀ (k : String) (rest : SchemaTree),
        getIndexedFields ((k, FieldDecl.prim) :: rest) = k :: getIndexedFields rest)
    ∧ (∀ (k : String) (b : Bool) (rest : SchemaTree),
        getIndexedFields ((k, simpleFlagged b) :: rest)
          = if b then getIndexedFields rest else k :: getIndexedFields rest) := by
  refine ⟨rfl, fun k rest => rfl, fun k b rest => ?_⟩
  cases b <;> simp [getIndexedFields, simpleFlagged, foundDontIndex]

/-- C10: a top-level object-valued field whose own `es_no_index` is truthy is
always excluded, whatever its sub-keys carry: line 188 sends it to the
`else if` at line 202, whose condition is then false. -/
theorem getIndexedFields_obj_self_flagged_excluded
    (k : String) (subs : List SubKey) (rest : SchemaTree) :
    getIndexedFields ((k, FieldDecl.obj { es_no_index := true, subs := subs }) :: rest)
      = getIndexedFields rest := by
  simp [getIndexedFields]

/-- C5: with a prefix configured, a non-empty collections list resolves to
the listed names each prepended with the prefix and a dash, in list order;
an empty or absent collections list resolves to the single wildcard
target prefix-star. -/
theorem resolveTargets_with_prefix (p : String) (c : String) (cs : List String) :
    resolveTargets (some p) { collections := some (c :: cs) }
      = (some ((c :: cs).map (fun x => p ++ "-" ++ x)), { collections := some (c :: cs) })
    ∧ resolveTargets (some p) { collections := some [] }
      = (some [p ++ "*"], { collections := some [] })
    ∧ resolveTargets (some p) { collections := none }
      = (some [p ++ "*"], { collections := none }) := by
  refine ⟨?_, rfl, rfl⟩
  simp [resolveTargets, collectionsNonEmpty]

/-- C2: with no prefix configured and the collections key absent,
`elmongo.search` does **not** issue a request against the `_all` sentinel:
line 94 stores the sentinel on `searchOpts.collections`, but the local
`collections` variable used to build the uri at line 98 is still
`undefined`, so the call throws a `TypeError` before any request is made. -/
theorem search_no_prefix_absent_collections_throws :
    elmongoSearch { host := some "localhost", port := some 9200, pfx := none }
        { collections := none }
      = Except.error JsError.joinOnUndefined
    ∧ resolveTargets none { collections := none }
      = (none, { collections := some ["_all"] }) :=
  ⟨rfl, rfl⟩

/-- C3: the second configuration call does not preserve previously
configured keys.  Whatever was stored, line 118 rebinds the registry to a
normalization of the new options alone, so any two prior states give the
same result; concretely, a port and prefix set by a first call and omitted
by a second call are reset to the built-in port and to no prefix. -/
theorem searchConfig_second_call_discards_unmentioned_keys :
    (∀ (s1 s2 : Option UrlOpts) (o : UrlOpts), searchConfig s1 o = searchConfig s2 o)
    ∧ searchConfig
        (searchConfig none { host := some "h1", port := some 1234, pfx := some "dev" })
        { host := some "h2", port := none, pfx := none }
      = some { host := some "h2", port := some builtinPort, pfx := none } :=
  ⟨fun _ _ _ => rfl, rfl⟩

/-- C4: on request failure the index and unindex callbacks emit exactly one
`error` event whose payload carries the underlying cause in its `details`
field and emit no success event; on success they emit exactly the
`elmongo-indexed` / `elmongo-unindexed` event with the response body.  Both
callbacks are total functions of the outcome: they return an emission list
in every case instead of raising. -/
theorem index_unindex_emissions (err body : String) :
    indexCallback (Except.error err)
      = [Emission.error
          { message := "Elasticsearch document indexing error: " ++ utilInspect err
            details := err }]
    ∧ indexCallback (Except.ok body) = [Emission.indexed body]
    ∧ unindexCallback (Except.error err)
      = [Emission.error
          { message := "Elasticsearch document index deletion error: " ++ utilInspect err
            details := err }]
    ∧ unindexCallback (Except.ok body) = [Emission.unindexed body] :=
  ⟨rfl, rfl, rfl, rfl⟩

/-- Helper: `elmongoSearch` unfolded past its merged-options binding. -/
theorem elmongoSearch_eq (cfg : UrlOpts) (s : SearchOpts) :
    elmongoSearch cfg s =
      match resolveTargets (mergeOptions cfg).pfx s with
      | (none, _) => Except.error JsError.joinOnUndefined
      | (some targets, s2) =>
          Except.ok
            (makeDomainUri (mergeOptions cfg) ++ "/" ++ String.intercalate "," targets
              ++ searchUriTail, s2) := rfl

/-- C7: the per-model search uri has the exact shape
host, colon, port, slash, index, slash, type, then the fixed `_search`
query-string tail; and every uri `elmongo.search` hands to the request
executor is host-and-port, a slash, the comma-joined resolved targets, then
the same fixed tail. -/
theorem search_uri_shape (o : ModelOptions) (cfg : UrlOpts) (sOpts : SearchOpts)
    (uri : String) (outOpts : SearchOpts)
    (h : elmongoSearch cfg sOpts = Except.ok (uri, outOpts)) :
    staticSearchUri o
      = o.host ++ ":" ++ toString o.port ++ "/" ++ o.index ++ "/" ++ o.type
        ++ "/_search?search_type=dfs_query_then_fetch&preference=_primary_first"
    ∧ ∃ targets, (resolveTargets (mergeOptions cfg).pfx sOpts).1 = some targets
        ∧ uri = makeDomainUri (mergeOptions cfg) ++ "/" ++ String.intercalate "," targets
            ++ "/_search?search_type=dfs_query_then_fetch&preference=_primary_first" := by
  constructor
  · rfl
  · rw [elmongoSearch_eq] at h
    rcases hres : resolveTargets (mergeOptions cfg).pfx sOpts with ⟨tgt, so⟩
    rw [hres] at h
    cases tgt with
    | none => exact absurd h (by simp)
    | some ts =>
        refine ⟨ts, rfl, ?_⟩
        simpa [searchUriTail] using (congrArg Prod.fst (Except.ok.inj h)).symm

/-- C7 witness: the shape theorem applied to a concrete model-options record
and a concrete successful cross-collection search. -/
theorem search_uri_shape_witness :
    elmongoSearch { host := some "localhost", port := some 9200, pfx := none }
        { collections := some ["a", "b"] }
      = Except.ok
          ("localhost:9200/a,b/_search?search_type=dfs_query_then_fetch&preference=_primary_first",
           { collections := some ["a", "b"] })
    ∧ (staticSearchUri { host := "localhost", port := 9200, index := "cats", type := "cat" }
        = "localhost" ++ ":" ++ toString 9200 ++ "/" ++ "cats" ++ "/" ++ "cat"
          ++ "/_search?search_type=dfs_query_then_fetch&preference=_primary_first"
      ∧ ∃ targets,
          (resolveTargets
            (mergeOptions { host := some "localhost", port := some 9200, pfx := none }).pfx
            { collections := some ["a", "b"] }).1 = some targets
          ∧ "localhost:9200/a,b/_search?search_type=dfs_query_then_fetch&preference=_primary_first"
            = makeDomainUri (mergeOptions { host := some "localhost", port := some 9200, pfx := none })
              ++ "/" ++ String.intercalate "," targets
              ++ "/_search?search_type=dfs_query_then_fetch&preference=_primary_first") :=
  ⟨rfl,
   search_uri_shape { host := "localhost", port := 9200, index := "cats", type := "cat" }
     { host := some "localhost", port := some 9200, pfx := none }
     { collections := some ["a", "b"] } _ _ rfl⟩

/-- C8: attaching the plugin computes the indexed-field set exactly once, and
every subsequent post-save hook and sync invocation supplies that same
attach-time set to serialization — the computation counter stays at one over
any operation sequence and each operation reports the attach-time set. -/
theorem indexedFields_computed_once (tree : SchemaTree) (ops : List PluginOp) :
    (runOps (elmongoAttach tree) ops).1 = ops.map (fun _ => getIndexedFields tree)
    ∧ (runOps (elmongoAttach tree) ops).2.fieldComputations = 1
    ∧ (runOps (elmongoAttach tree) ops).2.indexedFields = getIndexedFields tree := by
  simp [runOps_const, elmongoAttach]

/-- C9: with no prefix configured, a present-but-empty collections list is
not replaced by the `_all` sentinel — only an absent collections value
triggers the line 94 assignment (and then only on the `searchOpts` object,
not on the local used for the uri) — so the uri built for an empty list has
the empty string as its target segment. -/
theorem search_no_prefix_empty_list (host : Option String) (port : Option Nat) :
    elmongoSearch { host := host, port := port, pfx := none } { collections := some [] }
      = Except.ok
          (makeDomainUri (mergeOptions { host := host, port := port, pfx := none })
            ++ "/" ++ "" ++ searchUriTail,
           { collections := some [] })
    ∧ resolveTargets none { collections := some [] } = (some [], { collections := some [] })
    ∧ resolveTargets none { collections := none } = (none, { collections := some ["_all"] })
    ∧ elmongoSearch { host := host, port := port, pfx := none } { collections := none }
      = Except.error JsError.joinOnUndefined :=
  ⟨rfl, rfl, rfl, rfl⟩

end Elmongo
